import Mathlib

/-!
Verification of the SplitBill engine (`src/controllers/splitBillController.js`,
present in the repository in two variants: `part_000`, which awaits
`completeOrder` directly after commit, and `part_001`, which invokes the
completion controller through mock request/response objects inside its own
try/catch).  JavaScript numbers are modelled by exact rationals `ℚ`; JS objects
carrying arbitrary extra fields are modelled by records with an explicit
`extra`/`meta`/`passthrough` association list for the fields the split logic
copies verbatim via object spread or the SQL column list.
-/

instance exceptDecEq {ε α : Type} [DecidableEq ε] [DecidableEq α] :
    DecidableEq (Except ε α) := fun a b =>
  match a, b with
  | Except.error e, Except.error f =>
    if h : e = f then Decidable.isTrue (by rw [h])
    else Decidable.isFalse (by intro hc; injection hc; exact h ‹_›)
  | Except.ok x, Except.ok y =>
    if h : x = y then Decidable.isTrue (by rw [h])
    else Decidable.isFalse (by intro hc; injection hc; exact h ‹_›)
  | Except.error _, Except.ok _ => Decidable.isFalse (by intro hc; exact Except.noConfusion hc)
  | Except.ok _, Except.error _ => Decidable.isFalse (by intro hc; exact Except.noConfusion hc)

/-- One customization sub-line of an item: `{qty, price, ...rest}`.
`originalPrice` is absent (`none`) on input orders and set by the calculators;
`extra` models all other JS object fields copied by the `...c` spread. -/
structure Customization where
  qty : ℚ
  price : ℚ
  originalPrice : Option ℚ
  extra : List (String × String)
deriving DecidableEq, Repr

/-- One item line: metadata fields (copied via `...itemData`) plus the ordered
customization list. -/
structure ItemLine where
  meta : List (String × String)
  customizations : List Customization
deriving DecidableEq, Repr

/-- `items` object: association list from item id to item data, in
`Object.entries` (insertion) order. -/
abbrev ItemMap := List (String × ItemLine)

def defaultCustomization : Customization :=
  { qty := 0, price := 0, originalPrice := none, extra := [] }

def defaultItemLine : ItemLine :=
  { meta := [], customizations := [] }

/-- Item data at position `j` of an item map (defaulting to an empty line). -/
def itemAt (m : ItemMap) (j : ℕ) : ItemLine :=
  (List.getD m j ("", defaultItemLine)).2

/-- Customization at position `k` of the item at position `j`. -/
def custAt (m : ItemMap) (j k : ℕ) : Customization :=
  List.getD (itemAt m j).customizations k defaultCustomization

/-! ## SplitCalculator — PortionSplit (`calculatePortionSplit`) -/

/-- `c ↦ {...c, qty: c.qty / count, originalPrice: c.price, price: c.price}`. -/
def portionCustomization (count : ℕ) (c : Customization) : Customization :=
  { c with qty := c.qty / (count : ℚ), originalPrice := some c.price, price := c.price }

/-- `{...itemData, customizations: itemData.customizations.map(...)}`. -/
def portionItem (count : ℕ) (it : ItemLine) : ItemLine :=
  { it with customizations := it.customizations.map (portionCustomization count) }

/-- `calculatePortionSplit(items, count)`: builds `count` shares; each share
maps every item id to the same portion-divided item data.  (The source also
computes an unused `totalQty`/`splitQty` pair per item; it has no effect on the
result and is omitted.) -/
def calculatePortionSplit (items : ItemMap) (count : ℕ) : List ItemMap :=
  List.replicate count (items.map (fun kv => (kv.1, portionItem count kv.2)))

/-! ## SplitCalculator — PercentageSplit (`calculatePercentageSplit`) -/

/-- `c ↦ {...c, qty: (c.qty * percentage) / 100, originalPrice: c.price, price: c.price}`. -/
def percentageCustomization (percentage : ℚ) (c : Customization) : Customization :=
  { c with qty := c.qty * percentage / 100, originalPrice := some c.price, price := c.price }

def percentageItem (percentage : ℚ) (it : ItemLine) : ItemLine :=
  { it with customizations := it.customizations.map (percentageCustomization percentage) }

/-- `calculatePercentageSplit(items, percentages)`: one share per percentage,
in the caller-supplied order. -/
def calculatePercentageSplit (items : ItemMap) (percentages : List ℚ) : List ItemMap :=
  percentages.map (fun percentage => items.map (fun kv => (kv.1, percentageItem percentage kv.2)))

/-! ## RequestValidator (`validateSplitRequest`) -/

/-- Request body: absent JSON fields are `none`; JS numbers are `ℚ`. -/
structure SplitRequestBody where
  tableId : Option String
  orderId : Option String
  splitType : Option String
  count : Option ℚ
  percentages : Option (List ℚ)
deriving DecidableEq, Repr

/-- JS truthiness of an optional string: `undefined`/`null`/`""` are falsy. -/
def truthyStr : Option String → Bool
  | none => false
  | some s => s ≠ ""

/-- Portion branch: `if (!count || count < 1 || !Number.isInteger(count)) throw`.
`Number.isInteger` on a rational is `den = 1`; `!count` is `count = 0`. -/
def validatePortionCount (count : Option ℚ) : Except String Unit :=
  match count with
  | none => Except.error "For portion split, count must be a positive integer"
  | some c =>
    if c = 0 ∨ c < 1 ∨ c.den ≠ 1 then
      Except.error "For portion split, count must be a positive integer"
    else Except.ok ()

/-- `Math.abs` on a rational (kept executable so the validator evaluates). -/
def ratAbs (q : ℚ) : ℚ := if q < 0 then -q else q

/-- Percentage branch: non-empty array check, then the `±0.01` sum check, then
the non-positive entry check — in the source's order. -/
def validatePercentageList (percentages : Option (List ℚ)) : Except String Unit :=
  match percentages with
  | none => Except.error "For percentage split, percentages must be a non-empty array"
  | some l =>
    if l.length = 0 then
      Except.error "For percentage split, percentages must be a non-empty array"
    else if ratAbs (l.sum - 100) > 1/100 then
      Except.error "Percentages must sum to 100"
    else if ∃ p ∈ l, p ≤ 0 then
      Except.error "All percentages must be greater than 0"
    else Except.ok ()

/-- `validateSplitRequest(body)`.  The two `splitType`-guarded blocks of the
source are mutually exclusive, so they are rendered as an if/else chain (the
second check guarantees `splitType` is `"portion"` or `"percentage"` when the
chain reaches the last branch). -/
def validateSplitRequest (body : SplitRequestBody) : Except String Unit :=
  if truthyStr body.tableId = false ∨ truthyStr body.orderId = false ∨
      truthyStr body.splitType = false then
    Except.error "tableId, orderId, and splitType are required"
  else if body.splitType ≠ some "portion" ∧ body.splitType ≠ some "percentage" then
    Except.error "splitType must be either \"portion\" or \"percentage\""
  else if body.splitType = some "portion" then
    validatePortionCount body.count
  else
    validatePercentageList body.percentages

/-- The error message `validateSplitRequest` produces (or `""` when it accepts). -/
def validationError (body : SplitRequestBody) : String :=
  match validateSplitRequest body with
  | Except.error msg => msg
  | Except.ok _ => ""

/-! ## SplitPersistenceCoordinator (`createSplitOrders`) -/

/-- One row of the `orders` table.  `json_data` holds the items payload
(`json_data.items` in the source); `passthrough` stands for the remaining
columns (`instructions`, `petpooja_bill_data`, …) that the cloning insert
copies verbatim from the original row. -/
structure OrderRow where
  id : String
  restaurant_id : String
  table_id : String
  json_data : ItemMap
  passthrough : List (String × String)
deriving DecidableEq, Repr

/-- The `orders` table, as a list of rows in insertion order. -/
abbrev DB := List OrderRow

/-- One element of the `results` array pushed per created split order. -/
structure SplitResultEntry where
  orderId : String
  items : ItemMap
  billData : OrderRow
deriving DecidableEq, Repr

/-- Observable events of one `createSplitOrders` run, in order. -/
inductive Ev where
  | beginTxn : Ev
  | insertAttempt (i : ℕ) : Ev
  | commitTxn : Ev
  | rollbackTxn : Ev
  | completeCall (restaurantId tableId : String) (total : ℚ) (paymentMethod : String) : Ev
deriving DecidableEq, Repr

/-- Outcome of the external order-completion collaborator: it can succeed,
report failure (falsy result / HTTP status ≥ 400), or raise. -/
inductive CompletionOutcome where
  | success : CompletionOutcome
  | failed : CompletionOutcome
  | threw (msg : String) : CompletionOutcome
deriving DecidableEq, Repr

/-- `` `${originalOrderId}-split-${i + 1}` ``. -/
def derivedOrderId (originalOrderId : String) (i : ℕ) : String :=
  originalOrderId ++ "-split-" ++ toString (i + 1)

/-- The `INSERT INTO orders ... SELECT ... FROM orders WHERE id = $3 RETURNING *`
statement: selects the row matching `originalOrderId`, inserts a clone with the
new id and `{items: splitItems}` payload, and returns the new row.  Yields
`none` (no returned row) when no row matches `originalOrderId`. -/
def insertOrderCloningFrom (db : DB) (originalOrderId newOrderId : String)
    (itemsPayload : ItemMap) : Option (OrderRow × DB) :=
  match List.find? (fun r => r.id == originalOrderId) db with
  | none => none
  | some orig =>
    let newRow : OrderRow := { orig with id := newOrderId, json_data := itemsPayload }
    some (newRow, db ++ [newRow])

/-- The insert loop of `createSplitOrders` (`for i in [0, splits.length)`),
run against the transaction's working view of the table.  `storeFail i = some
msg` models the store raising `msg` during the `i`-th insert statement; an
insert returning no row raises `Failed to create split order ...` as in the
source.  Returns the outcome (the `results` array and the table as the
transaction would commit it) plus the emitted events. -/
def runInserts (storeFail : ℕ → Option String) (originalOrderId : String) :
    List ItemMap → ℕ → DB → List SplitResultEntry →
    Except String (List SplitResultEntry × DB) × List Ev
  | [], _, db, acc => (Except.ok (acc, db), [])
  | splitItems :: rest, i, db, acc =>
    match storeFail i with
    | some msg => (Except.error msg, [Ev.insertAttempt i])
    | none =>
      match insertOrderCloningFrom db originalOrderId (derivedOrderId originalOrderId i)
          splitItems with
      | none =>
        (Except.error ("Failed to create split order " ++ derivedOrderId originalOrderId i),
         [Ev.insertAttempt i])
      | some (newOrder, db') =>
        let out := runInserts storeFail originalOrderId rest (i + 1) db'
          (acc ++ [{ orderId := derivedOrderId originalOrderId i,
                     items := splitItems, billData := newOrder }])
        (out.1, Ev.insertAttempt i :: out.2)

/-- Outcome of the insert phase for a whole run (starting at index 0 with an
empty `results` accumulator). -/
def insertsOutcome (storeFail : ℕ → Option String) (originalOrderId : String)
    (splits : List ItemMap) (db : DB) : Except String (List SplitResultEntry × DB) :=
  (runInserts storeFail originalOrderId splits 0 db []).1

/-- `true` iff every insert of the run succeeds. -/
def insertsOk (storeFail : ℕ → Option String) (originalOrderId : String)
    (splits : List ItemMap) (db : DB) : Bool :=
  match insertsOutcome storeFail originalOrderId splits db with
  | Except.ok _ => true
  | Except.error _ => false

/-- `createSplitOrders(originalOrder, splits, tableId, originalOrderId)` as in
`part_000`: BEGIN; the insert loop; on any error ROLLBACK (the table is left
as it was) and rethrow; otherwise COMMIT and `await completeOrder(
originalOrder.restaurant_id, originalOrder.table_id, 0, 'split')`.  A falsy
completion result is only logged, but a completion *throw* lands in the same
catch block (which issues a post-commit, hence ineffective, ROLLBACK) and is
rethrown.  Returns `(returned value, final table, events)`. -/
def createSplitOrders (storeFail : ℕ → Option String) (completion : CompletionOutcome)
    (originalOrder : OrderRow) (splits : List ItemMap) (tableId originalOrderId : String)
    (db : DB) : Except String (List SplitResultEntry) × DB × List Ev :=
  let out := runInserts storeFail originalOrderId splits 0 db []
  match out.1 with
  | Except.error msg => (Except.error msg, db, Ev.beginTxn :: out.2 ++ [Ev.rollbackTxn])
  | Except.ok (results, db') =>
    let evs := Ev.beginTxn :: out.2 ++
      [Ev.commitTxn,
       Ev.completeCall originalOrder.restaurant_id originalOrder.table_id 0 "split"]
    match completion with
    | CompletionOutcome.threw msg => (Except.error msg, db', evs ++ [Ev.rollbackTxn])
    | _ => (Except.ok results, db', evs)

/-- `createSplitOrders` as in `part_001`: identical transaction phase, but the
completion controller is invoked through mock request/response objects inside
its own try/catch, so neither a failure status nor a thrown error ever
escapes; the completion outcome is only logged.  (The post-completion
diagnostic SELECTs of the source are read-only logging and not modelled.) -/
def createSplitOrdersCtl (storeFail : ℕ → Option String) (completion : CompletionOutcome)
    (originalOrder : OrderRow) (splits : List ItemMap) (tableId originalOrderId : String)
    (db : DB) : Except String (List SplitResultEntry) × DB × List Ev :=
  let out := runInserts storeFail originalOrderId splits 0 db []
  match out.1 with
  | Except.error msg => (Except.error msg, db, Ev.beginTxn :: out.2 ++ [Ev.rollbackTxn])
  | Except.ok (results, db') =>
    (Except.ok results, db',
     Ev.beginTxn :: out.2 ++
       [Ev.commitTxn,
        Ev.completeCall originalOrder.restaurant_id originalOrder.table_id 0 "split"])

/-! ## SplitBillWorkflow (`splitBill`) -/

/-- The HTTP response: `res.json(...)` (status 200) on success,
`res.status(s).json({error: msg})` on failure. -/
inductive SplitResponse where
  | ok (message : String) (results : List SplitResultEntry) : SplitResponse
  | err (status : ℕ) (error : String) : SplitResponse
deriving DecidableEq, Repr

/-- A row with the given id exists in the table. -/
def hasRowWithId (db : DB) (id : String) : Bool :=
  db.any (fun r => r.id == id)

/-- `SELECT * FROM orders WHERE id = $1 AND table_id = $2` (first match). -/
def fetchOrder (db : DB) (orderId tableId : String) : Option OrderRow :=
  List.find? (fun r => r.id == orderId && r.table_id == tableId) db

/-- The validated portion count as a natural number. -/
def countAsNat (count : Option ℚ) : ℕ :=
  ((count.getD 0).num).toNat

/-- `splitBill(req, res)` (`part_000` variant): validate, fetch the original
order (404 when absent), calculate the splits, persist, respond.  Any thrown
error is answered with status 400 and `{error: message}`.  Returns
`(response, final table, whether the store was accessed)`. -/
def splitBill (storeFail : ℕ → Option String) (completion : CompletionOutcome)
    (body : SplitRequestBody) (db : DB) : SplitResponse × DB × Bool :=
  match validateSplitRequest body with
  | Except.error msg => (SplitResponse.err 400 msg, db, false)
  | Except.ok _ =>
    match fetchOrder db (body.orderId.getD "") (body.tableId.getD "") with
    | none => (SplitResponse.err 404 "Order not found", db, true)
    | some order =>
      let items := order.json_data
      let splits :=
        if body.splitType = some "portion" then
          calculatePortionSplit items (countAsNat body.count)
        else
          calculatePercentageSplit items (body.percentages.getD [])
      match createSplitOrders storeFail completion order splits (body.tableId.getD "")
          (body.orderId.getD "") db with
      | (Except.ok results, db', _) =>
        (SplitResponse.ok "Bill split successful" results, db', true)
      | (Except.error msg, db', _) => (SplitResponse.err 400 msg, db', true)

/-! ## Concrete fixtures -/

/-- A store that never raises. -/
def noFail : ℕ → Option String := fun _ => none

/-- A store that raises on every statement. -/
def downStore : ℕ → Option String := fun _ => some "connection terminated"

def sampleCustomization : Customization :=
  { qty := 9, price := 10, originalPrice := none, extra := [("name", "Extra Cheese")] }

def sampleItemLine : ItemLine :=
  { meta := [("name", "Pizza")], customizations := [sampleCustomization] }

def sampleItems : ItemMap := [("item-1", sampleItemLine)]

def sampleOrder : OrderRow :=
  { id := "order-123", restaurant_id := "rest-1", table_id := "table-1",
    json_data := sampleItems, passthrough := [("invoice_number", "INV-7")] }

def sampleDB : DB := [sampleOrder]

def samplePortionShare : ItemMap := sampleItems.map (fun kv => (kv.1, portionItem 2 kv.2))

def samplePortionSplits : List ItemMap := calculatePortionSplit sampleItems 2

def samplePortionBody : SplitRequestBody :=
  { tableId := some "table-1", orderId := some "order-123", splitType := some "portion",
    count := some 2, percentages := none }

def samplePercentages : List ℚ := [40, 35, 25]

def samplePercentageShare40 : ItemMap :=
  sampleItems.map (fun kv => (kv.1, percentageItem 40 kv.2))

def samplePercentageBody : SplitRequestBody :=
  { tableId := some "table-1", orderId := some "order-123", splitType := some "percentage",
    count := none, percentages := some samplePercentages }

/-- C7's first input: percentages summing to 95. -/
def sumMismatchBody : SplitRequestBody :=
  { tableId := some "table-1", orderId := some "order-123", splitType := some "percentage",
    count := none, percentages := some [40, 35, 20] }

/-- C7's second input: a negative entry but a sum of exactly 100. -/
def negativeEntryBody : SplitRequestBody :=
  { tableId := some "table-1", orderId := some "order-123", splitType := some "percentage",
    count := none, percentages := some [50, -10, 60] }

/-- A request with `tableId` absent. -/
def missingTableBody : SplitRequestBody :=
  { tableId := none, orderId := some "order-123", splitType := some "portion",
    count := some 2, percentages := none }

/-! ## Projections and observation helpers -/

/-- The `results` array produced by a fully successful insert phase
(`[]` when some insert failed). -/
def splitResults (storeFail : ℕ → Option String) (originalOrderId : String)
    (splits : List ItemMap) (db : DB) : List SplitResultEntry :=
  match insertsOutcome storeFail originalOrderId splits db with
  | Except.ok (res, _) => res
  | Except.error _ => []

def isCompleteCall : Ev → Bool
  | Ev.completeCall _ _ _ _ => true
  | _ => false

/-- The completion-collaborator invocations recorded in a trace. -/
def completeEvents (tr : List Ev) : List Ev := tr.filter isCompleteCall

/-- The completion-collaborator invocations occurring strictly before the
first COMMIT of a trace (i.e. while the transaction is still open). -/
def completesBeforeCommit : List Ev → List Ev
  | [] => []
  | Ev.commitTxn :: _ => []
  | e :: rest => (if isCompleteCall e then [e] else []) ++ completesBeforeCommit rest

/-- The invalid-request set enumerated by the spec (§4.1 / C6), stated from
the spec's words — not from the code — for comparison with
`validateSplitRequest`. -/
def specInvalidRequest (b : SplitRequestBody) : Prop :=
  b.tableId = none ∨ b.orderId = none ∨ b.splitType = none ∨
  (∃ s, b.splitType = some s ∧ s ≠ "portion" ∧ s ≠ "percentage") ∨
  (b.splitType = some "portion" ∧
    (b.count = none ∨ ∃ c, b.count = some c ∧ (c.den ≠ 1 ∨ c < 1))) ∨
  (b.splitType = some "percentage" ∧
    (b.percentages = none ∨ ∃ l, b.percentages = some l ∧
      (l = [] ∨ (∃ p ∈ l, p ≤ 0) ∨ |l.sum - 100| > 1/100)))

/-! ## Helper lemmas -/

theorem ratAbs_eq_abs (q : ℚ) : ratAbs q = |q| := by
  unfold ratAbs
  by_cases h : q < 0
  · rw [if_pos h, abs_of_neg h]
  · rw [if_neg h, abs_of_nonneg (le_of_not_lt h)]

theorem hasRowWithId_of_mem {db : DB} {r : OrderRow} (hr : r ∈ db) {i : String}
    (h : r.id = i) : hasRowWithId db i = true := by
  unfold hasRowWithId
  rw [List.any_eq_true]
  exact ⟨r, hr, by rw [h]; simp⟩

theorem insertOrderCloningFrom_some {db : DB} {oid nid : String} {payload : ItemMap}
    {row : OrderRow} {db' : DB}
    (h : insertOrderCloningFrom db oid nid payload = some (row, db')) :
    row.id = nid ∧ row.json_data = payload ∧ db' = db ++ [row] := by
  unfold insertOrderCloningFrom at h
  cases hfind : List.find? (fun r => r.id == oid) db with
  | none => rw [hfind] at h; exact absurd h (by simp)
  | some orig =>
    rw [hfind] at h
    simp only [Option.some.injEq, Prod.mk.injEq] at h
    obtain ⟨hrow, hdb⟩ := h
    subst hrow
    exact ⟨rfl, rfl, hdb.symm⟩

theorem runInserts_events (sf : ℕ → Option String) (oid : String) :
    ∀ (splits : List ItemMap) (i : ℕ) (db : DB) (acc : List SplitResultEntry),
      ∀ e ∈ (runInserts sf oid splits i db acc).2, ∃ j, e = Ev.insertAttempt j := by
  intro splits
  induction splits with
  | nil => intro i db acc e he; simp [runInserts] at he
  | cons s rest ih =>
    intro i db acc e he
    cases hsf : sf i with
    | some msg =>
      simp only [runInserts, hsf] at he
      simp at he
      exact ⟨i, he⟩
    | none =>
      cases hins : insertOrderCloningFrom db oid (derivedOrderId oid i) s with
      | none =>
        simp only [runInserts, hsf, hins] at he
        simp at he
        exact ⟨i, he⟩
      | some pr =>
        obtain ⟨row, db'⟩ := pr
        simp only [runInserts, hsf, hins, List.mem_cons] at he
        rcases he with he | he
        · exact ⟨i, he⟩
        · exact ih (i + 1) db' _ e he

theorem runInserts_ok_db (sf : ℕ → Option String) (oid : String) :
    ∀ (splits : List ItemMap) (i : ℕ) (db : DB) (acc res : List SplitResultEntry) (db₂ : DB),
      (runInserts sf oid splits i db acc).1 = Except.ok (res, db₂) →
      (∃ tail, db₂ = db ++ tail) ∧
      ∀ j, j < splits.length →
        ∃ r, r ∈ db₂ ∧ r.id = derivedOrderId oid (i + j) ∧
          r.json_data = splits.getD j [] := by
  intro splits
  induction splits with
  | nil =>
    intro i db acc res db₂ h
    simp only [runInserts, Except.ok.injEq, Prod.mk.injEq] at h
    refine ⟨⟨[], by rw [← h.2, List.append_nil]⟩, ?_⟩
    intro j hj
    exact absurd hj (by simp)
  | cons s rest ih =>
    intro i db acc res db₂ h
    cases hsf : sf i with
    | some msg => simp [runInserts, hsf] at h
    | none =>
      cases hins : insertOrderCloningFrom db oid (derivedOrderId oid i) s with
      | none => simp [runInserts, hsf, hins] at h
      | some pr =>
        obtain ⟨row, db'⟩ := pr
        simp only [runInserts, hsf, hins] at h
        obtain ⟨hrid, hrjson, hdb'⟩ := insertOrderCloningFrom_some hins
        obtain ⟨⟨tail, htail⟩, hrows⟩ := ih (i + 1) db' _ res db₂ h
        constructor
        · exact ⟨[row] ++ tail, by rw [htail, hdb', List.append_assoc]⟩
        · intro j hj
          cases j with
          | zero =>
            refine ⟨row, ?_, by simpa using hrid, by simpa using hrjson⟩
            rw [htail, hdb']
            exact List.mem_append_left _ (List.mem_append_right _ (List.mem_singleton_self row))
          | succ j' =>
            obtain ⟨r, hrmem, hrid', hrjson'⟩ := hrows j' (by simpa using hj)
            refine ⟨r, hrmem, ?_, by simpa using hrjson'⟩
            have harith : i + 1 + j' = i + (j' + 1) := by omega
            rw [← harith]
            exact hrid'

theorem derivedIds_range_succ (oid : String) (i n : ℕ) :
    (List.range (n + 1)).map (fun j => derivedOrderId oid (i + j))
      = derivedOrderId oid i :: (List.range n).map (fun j => derivedOrderId oid (i + 1 + j)) := by
  rw [List.range_succ_eq_map, List.map_cons, List.map_map]
  refine List.cons_eq_cons.mpr ⟨by simp, ?_⟩
  apply List.map_congr_left
  intro a ha
  show derivedOrderId oid (i + (a + 1)) = derivedOrderId oid (i + 1 + a)
  have h2 : i + (a + 1) = i + 1 + a := by omega
  rw [h2]

theorem runInserts_ok_res (sf : ℕ → Option String) (oid : String) :
    ∀ (splits : List ItemMap) (i : ℕ) (db : DB) (acc res : List SplitResultEntry) (db₂ : DB),
      (runInserts sf oid splits i db acc).1 = Except.ok (res, db₂) →
      res.map (fun e => e.orderId)
          = acc.map (fun e => e.orderId)
            ++ (List.range splits.length).map (fun j => derivedOrderId oid (i + j)) ∧
      res.map (fun e => e.items) = acc.map (fun e => e.items) ++ splits := by
  intro splits
  induction splits with
  | nil =>
    intro i db acc res db₂ h
    simp only [runInserts, Except.ok.injEq, Prod.mk.injEq] at h
    rw [← h.1]
    simp
  | cons s rest ih =>
    intro i db acc res db₂ h
    cases hsf : sf i with
    | some msg => simp [runInserts, hsf] at h
    | none =>
      cases hins : insertOrderCloningFrom db oid (derivedOrderId oid i) s with
      | none => simp [runInserts, hsf, hins] at h
      | some pr =>
        obtain ⟨row, db'⟩ := pr
        simp only [runInserts, hsf, hins] at h
        obtain ⟨hids, hitems⟩ := ih (i + 1) db' _ res db₂ h
        constructor
        · rw [hids, List.map_append, List.length_cons, derivedIds_range_succ]
          simp
        · rw [hitems, List.map_append]
          simp [List.append_assoc]

theorem itemAt_map (f : ItemLine → ItemLine) (m : ItemMap) (j : ℕ) (hj : j < m.length) :
    itemAt (m.map (fun kv => (kv.1, f kv.2))) j = f (itemAt m j) := by
  unfold itemAt
  rw [List.getD_eq_getElem _ _ (by simpa using hj), List.getD_eq_getElem _ _ hj,
    List.getElem_map]

theorem custAt_map (g : Customization → Customization) (f : ItemLine → ItemLine)
    (hf : ∀ it, (f it).customizations = it.customizations.map g)
    (m : ItemMap) (j k : ℕ) (hj : j < m.length)
    (hk : k < (itemAt m j).customizations.length) :
    custAt (m.map (fun kv => (kv.1, f kv.2))) j k = g (custAt m j k) := by
  unfold custAt
  rw [itemAt_map f m j hj, hf]
  rw [List.getD_eq_getElem _ _ (by simpa using hk), List.getD_eq_getElem _ _ hk,
    List.getElem_map]

theorem mapped_share_structure (f : ItemLine → ItemLine) (g : Customization → Customization)
    (hfm : ∀ it, (f it).meta = it.meta)
    (hfc : ∀ it, (f it).customizations = it.customizations.map g)
    (hgp : ∀ c, (g c).price = c.price) (hge : ∀ c, (g c).extra = c.extra)
    (items : ItemMap) :
    (items.map (fun kv => (kv.1, f kv.2))).map Prod.fst = items.map Prod.fst ∧
    ∀ j, j < items.length →
      (itemAt (items.map (fun kv => (kv.1, f kv.2))) j).meta = (itemAt items j).meta ∧
      (itemAt (items.map (fun kv => (kv.1, f kv.2))) j).customizations.length
        = (itemAt items j).customizations.length ∧
      ∀ k, k < (itemAt items j).customizations.length →
        (custAt (items.map (fun kv => (kv.1, f kv.2))) j k).price = (custAt items j k).price ∧
        (custAt (items.map (fun kv => (kv.1, f kv.2))) j k).extra = (custAt items j k).extra := by
  constructor
  · rw [List.map_map]
    rfl
  · intro j hj
    rw [itemAt_map f items j hj]
    refine ⟨hfm _, by rw [hfc]; simp, ?_⟩
    intro k hk
    rw [custAt_map g f hfc items j k hj hk]
    exact ⟨hgp _, hge _⟩

theorem validatePortionCount_ok {oc : Option ℚ} (h : validatePortionCount oc = Except.ok ()) :
    ∃ c, oc = some c ∧ c.den = 1 ∧ 1 ≤ c := by
  cases oc with
  | none => simp [validatePortionCount] at h
  | some c =>
    refine ⟨c, rfl, ?_⟩
    rw [show validatePortionCount (some c)
        = if c = 0 ∨ c < 1 ∨ c.den ≠ 1 then
            Except.error "For portion split, count must be a positive integer"
          else Except.ok () from rfl] at h
    by_cases hc : c = 0 ∨ c < 1 ∨ c.den ≠ 1
    · rw [if_pos hc] at h
      exact absurd h (by simp)
    · push_neg at hc
      exact ⟨hc.2.2, hc.2.1⟩

theorem validatePercentageList_ok {op : Option (List ℚ)}
    (h : validatePercentageList op = Except.ok ()) :
    ∃ l, op = some l ∧ l ≠ [] ∧ ratAbs (l.sum - 100) ≤ 1/100 ∧ ∀ p ∈ l, 0 < p := by
  cases op with
  | none => simp [validatePercentageList] at h
  | some l =>
    refine ⟨l, rfl, ?_⟩
    rw [show validatePercentageList (some l)
        = if l.length = 0 then
            Except.error "For percentage split, percentages must be a non-empty array"
          else if ratAbs (l.sum - 100) > 1/100 then
            Except.error "Percentages must sum to 100"
          else if ∃ p ∈ l, p ≤ 0 then
            Except.error "All percentages must be greater than 0"
          else Except.ok () from rfl] at h
    by_cases h1 : l.length = 0
    · rw [if_pos h1] at h
      exact absurd h (by simp)
    rw [if_neg h1] at h
    by_cases h2 : ratAbs (l.sum - 100) > 1/100
    · rw [if_pos h2] at h
      exact absurd h (by simp)
    rw [if_neg h2] at h
    by_cases h3 : ∃ p ∈ l, p ≤ 0
    · rw [if_pos h3] at h
      exact absurd h (by simp)
    rw [if_neg h3] at h
    push_neg at h3
    exact ⟨by simpa [List.length_eq_zero] using h1, le_of_not_lt h2, h3⟩

theorem validateSplitRequest_ok {b : SplitRequestBody}
    (h : validateSplitRequest b = Except.ok ()) : ¬ specInvalidRequest b := by
  unfold validateSplitRequest at h
  intro hspec
  by_cases h1 : truthyStr b.tableId = false ∨ truthyStr b.orderId = false ∨
      truthyStr b.splitType = false
  · rw [if_pos h1] at h
    simp at h
  rw [if_neg h1] at h
  push_neg at h1
  obtain ⟨ht1, ht2, ht3⟩ := h1
  by_cases h2 : b.splitType ≠ some "portion" ∧ b.splitType ≠ some "percentage"
  · rw [if_pos h2] at h
    simp at h
  rw [if_neg h2] at h
  have hpp : b.splitType = some "portion" ∨ b.splitType = some "percentage" := by
    rcases not_and_or.mp h2 with hx | hx
    · exact Or.inl (not_not.mp hx)
    · exact Or.inr (not_not.mp hx)
  rcases hspec with htn | hon | hsn | ⟨s, hs, hsp, hspc⟩ | ⟨hty, hcount⟩ | ⟨hty, hpcs⟩
  · rw [htn] at ht1
    exact ht1 rfl
  · rw [hon] at ht2
    exact ht2 rfl
  · rw [hsn] at ht3
    exact ht3 rfl
  · rcases hpp with hx | hx
    · rw [hs, Option.some.injEq] at hx
      exact hsp hx
    · rw [hs, Option.some.injEq] at hx
      exact hspc hx
  · rw [if_pos hty] at h
    obtain ⟨c, hc, hden, hge⟩ := validatePortionCount_ok h
    rcases hcount with hnone | ⟨c2, hc2, hbad⟩
    · rw [hnone] at hc
      exact Option.noConfusion hc
    · rw [hc2] at hc
      injection hc with hcc
      subst hcc
      rcases hbad with hb | hb
      · exact hb hden
      · exact absurd hb (not_lt.mpr hge)
  · have hnp : ¬ b.splitType = some "portion" := by
      rw [hty]
      simp
    rw [if_neg hnp] at h
    obtain ⟨l, hl, hne, hsum, hpos⟩ := validatePercentageList_ok h
    rcases hpcs with hnone | ⟨l2, hl2, hbad⟩
    · rw [hnone] at hl
      exact Option.noConfusion hl
    · rw [hl2] at hl
      injection hl with hll
      subst hll
      rcases hbad with hb | ⟨p, hp, hple⟩ | hb
      · exact hne hb
      · exact absurd hple (not_le.mpr (hpos p hp))
      · rw [← ratAbs_eq_abs] at hb
        exact absurd hb (not_lt.mpr hsum)

theorem runInserts_filter_complete (sf : ℕ → Option String) (oid : String)
    (splits : List ItemMap) (i : ℕ) (db : DB) (acc : List SplitResultEntry) :
    ((runInserts sf oid splits i db acc).2).filter isCompleteCall = [] := by
  rw [List.filter_eq_nil_iff]
  intro e he
  obtain ⟨j, rfl⟩ := runInserts_events sf oid splits i db acc e he
  simp [isCompleteCall]

theorem completesBeforeCommit_of_inserts :
    ∀ (evs : List Ev), (∀ e ∈ evs, ∃ j, e = Ev.insertAttempt j) →
      ∀ (rest : List Ev), completesBeforeCommit (evs ++ Ev.commitTxn :: rest) = [] := by
  intro evs
  induction evs with
  | nil =>
    intro _ rest
    rfl
  | cons e tl ih =>
    intro hall rest
    obtain ⟨j, rfl⟩ := hall e (List.mem_cons_self e tl)
    show (if isCompleteCall (Ev.insertAttempt j) then [Ev.insertAttempt j] else [])
        ++ completesBeforeCommit (tl ++ Ev.commitTxn :: rest) = []
    rw [ih (fun x hx => hall x (List.mem_cons_of_mem _ hx)) rest]
    simp [isCompleteCall]

theorem sum_map_qty_pct (q : ℚ) :
    ∀ (l : List ℚ), (l.map (fun p => q * p / 100)).sum = q * l.sum / 100
  | [] => by simp
  | p :: rest => by
    rw [List.map_cons, List.sum_cons, List.sum_cons, sum_map_qty_pct q rest]
    ring

theorem nsmul_div_cancel_count (count : ℕ) (hc : 1 ≤ count) (q : ℚ) :
    count • (q / (count : ℚ)) = q := by
  have hne : (count : ℚ) ≠ 0 := Nat.cast_ne_zero.mpr (by omega)
  rw [nsmul_eq_mul, mul_comm, div_mul_cancel₀ _ hne]

theorem insertsOk_eq_true {sf : ℕ → Option String} {oid : String} {splits : List ItemMap}
    {db : DB} :
    insertsOk sf oid splits db = true ↔
      ∃ res db₂, (runInserts sf oid splits 0 db []).1 = Except.ok (res, db₂) := by
  unfold insertsOk insertsOutcome
  cases h : (runInserts sf oid splits 0 db []).1 with
  | ok pr =>
    obtain ⟨res, db₂⟩ := pr
    simp
  | error msg =>
    simp

theorem insertsOk_false_error {sf : ℕ → Option String} {oid : String} {splits : List ItemMap}
    {db : DB} (h : insertsOk sf oid splits db = false) :
    ∃ msg, (runInserts sf oid splits 0 db []).1 = Except.error msg := by
  unfold insertsOk insertsOutcome at h
  cases hy : (runInserts sf oid splits 0 db []).1 with
  | ok pr =>
    rw [hy] at h
    simp at h
  | error msg => exact ⟨msg, rfl⟩

theorem splitResults_eq {sf : ℕ → Option String} {oid : String} {splits : List ItemMap}
    {db : DB} {res : List SplitResultEntry} {db₂ : DB}
    (h : (runInserts sf oid splits 0 db []).1 = Except.ok (res, db₂)) :
    splitResults sf oid splits db = res := by
  unfold splitResults insertsOutcome
  rw [h]

theorem createSplitOrders_error (sf : ℕ → Option String) (completion : CompletionOutcome)
    (orig : OrderRow) (splits : List ItemMap) (tid oid : String) (db : DB) (msg : String)
    (h : (runInserts sf oid splits 0 db []).1 = Except.error msg) :
    createSplitOrders sf completion orig splits tid oid db
      = (Except.error msg, db,
         Ev.beginTxn :: (runInserts sf oid splits 0 db []).2 ++ [Ev.rollbackTxn]) := by
  simp only [createSplitOrders]
  rw [h]

theorem createSplitOrdersCtl_error (sf : ℕ → Option String) (completion : CompletionOutcome)
    (orig : OrderRow) (splits : List ItemMap) (tid oid : String) (db : DB) (msg : String)
    (h : (runInserts sf oid splits 0 db []).1 = Except.error msg) :
    createSplitOrdersCtl sf completion orig splits tid oid db
      = (Except.error msg, db,
         Ev.beginTxn :: (runInserts sf oid splits 0 db []).2 ++ [Ev.rollbackTxn]) := by
  simp only [createSplitOrdersCtl]
  rw [h]

theorem createSplitOrders_ok_success (sf : ℕ → Option String) (orig : OrderRow)
    (splits : List ItemMap) (tid oid : String) (db : DB) (res : List SplitResultEntry)
    (db₂ : DB) (h : (runInserts sf oid splits 0 db []).1 = Except.ok (res, db₂)) :
    createSplitOrders sf CompletionOutcome.success orig splits tid oid db
      = (Except.ok res, db₂,
         Ev.beginTxn :: (runInserts sf oid splits 0 db []).2 ++
           [Ev.commitTxn, Ev.completeCall orig.restaurant_id orig.table_id 0 "split"]) := by
  simp only [createSplitOrders]
  rw [h]

theorem createSplitOrders_ok_failed (sf : ℕ → Option String) (orig : OrderRow)
    (splits : List ItemMap) (tid oid : String) (db : DB) (res : List SplitResultEntry)
    (db₂ : DB) (h : (runInserts sf oid splits 0 db []).1 = Except.ok (res, db₂)) :
    createSplitOrders sf CompletionOutcome.failed orig splits tid oid db
      = (Except.ok res, db₂,
         Ev.beginTxn :: (runInserts sf oid splits 0 db []).2 ++
           [Ev.commitTxn, Ev.completeCall orig.restaurant_id orig.table_id 0 "split"]) := by
  simp only [createSplitOrders]
  rw [h]

theorem createSplitOrders_ok_threw (sf : ℕ → Option String) (orig : OrderRow)
    (splits : List ItemMap) (tid oid : String) (db : DB) (res : List SplitResultEntry)
    (db₂ : DB) (msg : String)
    (h : (runInserts sf oid splits 0 db []).1 = Except.ok (res, db₂)) :
    createSplitOrders sf (CompletionOutcome.threw msg) orig splits tid oid db
      = (Except.error msg, db₂,
         (Ev.beginTxn :: (runInserts sf oid splits 0 db []).2 ++
           [Ev.commitTxn, Ev.completeCall orig.restaurant_id orig.table_id 0 "split"])
           ++ [Ev.rollbackTxn]) := by
  simp only [createSplitOrders]
  rw [h]

theorem createSplitOrdersCtl_ok (sf : ℕ → Option String) (completion : CompletionOutcome)
    (orig : OrderRow) (splits : List ItemMap) (tid oid : String) (db : DB)
    (res : List SplitResultEntry) (db₂ : DB)
    (h : (runInserts sf oid splits 0 db []).1 = Except.ok (res, db₂)) :
    createSplitOrdersCtl sf completion orig splits tid oid db
      = (Except.ok res, db₂,
         Ev.beginTxn :: (runInserts sf oid splits 0 db []).2 ++
           [Ev.commitTxn, Ev.completeCall orig.restaurant_id orig.table_id 0 "split"]) := by
  simp only [createSplitOrdersCtl]
  rw [h]

theorem createSplitOrders_db_ok (sf : ℕ → Option String) (completion : CompletionOutcome)
    (orig : OrderRow) (splits : List ItemMap) (tid oid : String) (db : DB)
    (res : List SplitResultEntry) (db₂ : DB)
    (h : (runInserts sf oid splits 0 db []).1 = Except.ok (res, db₂)) :
    (createSplitOrders sf completion orig splits tid oid db).2.1 = db₂ := by
  cases completion with
  | success => rw [createSplitOrders_ok_success sf orig splits tid oid db res db₂ h]
  | failed => rw [createSplitOrders_ok_failed sf orig splits tid oid db res db₂ h]
  | threw msg => rw [createSplitOrders_ok_threw sf orig splits tid oid db res db₂ msg h]

/-! ## Claim theorems -/

/-- Claim C1: persistence is all-or-nothing.  If any of the N derived-order
inserts fails (the insert returns no row, or the store raises), the whole
transaction is rolled back and the table afterwards is exactly the table
before, so no derived order of this operation is visible; if all N inserts
succeed, the committed table extends the old one and contains a row for every
derived order id.  Pre-existing rows — the original order row in particular —
are never deleted by this transaction. -/
theorem split_atomicity (storeFail : ℕ → Option String) (completion : CompletionOutcome)
    (originalOrder : OrderRow) (splits : List ItemMap) (tableId originalOrderId : String)
    (db : DB) :
    (insertsOk storeFail originalOrderId splits db = false →
      (createSplitOrders storeFail completion originalOrder splits tableId originalOrderId
          db).2.1 = db) ∧
    (insertsOk storeFail originalOrderId splits db = true →
      (∃ tail, (createSplitOrders storeFail completion originalOrder splits tableId
          originalOrderId db).2.1 = db ++ tail) ∧
      ∀ j, j < splits.length →
        hasRowWithId ((createSplitOrders storeFail completion originalOrder splits tableId
            originalOrderId db).2.1) (derivedOrderId originalOrderId j) = true) ∧
    (∀ r ∈ db, r ∈ (createSplitOrders storeFail completion originalOrder splits tableId
        originalOrderId db).2.1) := by
  by_cases hok : insertsOk storeFail originalOrderId splits db = true
  · obtain ⟨res, db₂, h⟩ := insertsOk_eq_true.mp hok
    have hdb := createSplitOrders_db_ok storeFail completion originalOrder splits tableId
      originalOrderId db res db₂ h
    obtain ⟨⟨tail, htail⟩, hrows⟩ :=
      runInserts_ok_db storeFail originalOrderId splits 0 db [] res db₂ h
    refine ⟨?_, ?_, ?_⟩
    · intro hfalse
      rw [hok] at hfalse
      exact absurd hfalse (by decide)
    · intro _
      constructor
      · exact ⟨tail, by rw [hdb]; exact htail⟩
      · intro j hj
        obtain ⟨r, hrmem, hrid, _⟩ := hrows j hj
        rw [hdb]
        exact hasRowWithId_of_mem hrmem (by rw [hrid, Nat.zero_add])
    · intro r hr
      rw [hdb, htail]
      exact List.mem_append_left _ hr
  · have hfalse : insertsOk storeFail originalOrderId splits db = false := by
      cases hx : insertsOk storeFail originalOrderId splits db
      · rfl
      · exact absurd hx hok
    obtain ⟨msg, h⟩ := insertsOk_false_error hfalse
    have heq := createSplitOrders_error storeFail completion originalOrder splits tableId
      originalOrderId db msg h
    refine ⟨?_, ?_, ?_⟩
    · intro _
      rw [heq]
    · intro htrue
      exact absurd htrue hok
    · intro r hr
      rw [heq]
      exact hr

theorem split_atomicity_witness :
    (createSplitOrders downStore CompletionOutcome.success sampleOrder samplePortionSplits
        "table-1" "order-123" sampleDB).2.1 = sampleDB ∧
    hasRowWithId ((createSplitOrders noFail CompletionOutcome.success sampleOrder
        samplePortionSplits "table-1" "order-123" sampleDB).2.1)
      (derivedOrderId "order-123" 0) = true ∧
    sampleOrder ∈ (createSplitOrders noFail CompletionOutcome.success sampleOrder
        samplePortionSplits "table-1" "order-123" sampleDB).2.1 := by
  refine ⟨(split_atomicity downStore CompletionOutcome.success sampleOrder samplePortionSplits
      "table-1" "order-123" sampleDB).1 rfl, ?_, ?_⟩
  · exact ((split_atomicity noFail CompletionOutcome.success sampleOrder samplePortionSplits
      "table-1" "order-123" sampleDB).2.1 rfl).2 0 (by decide)
  · exact (split_atomicity noFail CompletionOutcome.success sampleOrder samplePortionSplits
      "table-1" "order-123" sampleDB).2.2 sampleOrder (by simp [sampleDB])

/-- Claim C5: when every insert succeeds, the `results` list pairs the i-th
derived order (0-based) with id exactly `originalOrderId ++ "-split-" ++
toString (i+1)` (`derivedOrderId originalOrderId i`), in the order the shares
were produced (`res.map items = splits`); the value returned by
`createSplitOrders` on success is exactly this list; and for every index a row
with that id and that share as payload is persisted. -/
theorem derived_id_determinism (storeFail : ℕ → Option String)
    (completion : CompletionOutcome) (originalOrder : OrderRow) (splits : List ItemMap)
    (tableId originalOrderId : String) (db : DB)
    (h : insertsOk storeFail originalOrderId splits db = true) :
    (splitResults storeFail originalOrderId splits db).map (fun e => e.orderId)
        = (List.range splits.length).map (fun j => derivedOrderId originalOrderId j) ∧
    (splitResults storeFail originalOrderId splits db).map (fun e => e.items) = splits ∧
    (∀ res, (createSplitOrders storeFail completion originalOrder splits tableId
        originalOrderId db).1 = Except.ok res →
      res = splitResults storeFail originalOrderId splits db) ∧
    ∀ j, j < splits.length →
      ∃ r, r ∈ (createSplitOrders storeFail completion originalOrder splits tableId
          originalOrderId db).2.1 ∧ r.id = derivedOrderId originalOrderId j ∧
        r.json_data = splits.getD j [] := by
  obtain ⟨res, db₂, hrun⟩ := insertsOk_eq_true.mp h
  have hres := splitResults_eq hrun
  obtain ⟨hids, hitems⟩ :=
    runInserts_ok_res storeFail originalOrderId splits 0 db [] res db₂ hrun
  have hdb := createSplitOrders_db_ok storeFail completion originalOrder splits tableId
    originalOrderId db res db₂ hrun
  obtain ⟨_, hrows⟩ := runInserts_ok_db storeFail originalOrderId splits 0 db [] res db₂ hrun
  refine ⟨?_, ?_, ?_, ?_⟩
  · rw [hres, hids]
    simp only [List.map_nil, List.nil_append]
    apply List.map_congr_left
    intro a _
    rw [Nat.zero_add]
  · rw [hres, hitems]
    simp
  · intro res2 hres2
    cases completion with
    | success =>
      rw [createSplitOrders_ok_success storeFail originalOrder splits tableId originalOrderId
        db res db₂ hrun] at hres2
      have hx : Except.ok (ε := String) res = Except.ok res2 := hres2
      injection hx with hx2
      rw [← hx2, hres]
    | failed =>
      rw [createSplitOrders_ok_failed storeFail originalOrder splits tableId originalOrderId
        db res db₂ hrun] at hres2
      have hx : Except.ok (ε := String) res = Except.ok res2 := hres2
      injection hx with hx2
      rw [← hx2, hres]
    | threw msg =>
      rw [createSplitOrders_ok_threw storeFail originalOrder splits tableId originalOrderId
        db res db₂ msg hrun] at hres2
      have hx : Except.error (α := List SplitResultEntry) msg = Except.ok res2 := hres2
      exact absurd hx (by simp)
  · intro j hj
    obtain ⟨r, hrmem, hrid, hrjson⟩ := hrows j hj
    refine ⟨r, by rw [hdb]; exact hrmem, by rw [hrid, Nat.zero_add], hrjson⟩

theorem derived_id_determinism_witness :
    (splitResults noFail "order-123" samplePortionSplits sampleDB).map (fun e => e.orderId)
      = (List.range samplePortionSplits.length).map (fun j => derivedOrderId "order-123" j) ∧
    (splitResults noFail "order-123" samplePortionSplits sampleDB).map (fun e => e.items)
      = samplePortionSplits := by
  have h := derived_id_determinism noFail CompletionOutcome.success sampleOrder
    samplePortionSplits "table-1" "order-123" sampleDB rfl
  exact ⟨h.1, h.2.1⟩

/-- Claim C2 counterexample: in the `part_000` variant (`createSplitOrders`,
which awaits `completeOrder` directly inside the outer try), a *throwing*
completion collaborator after a successful commit makes the operation return
the thrown error instead of the results — the completion failure IS escalated
to the caller.  The commit did happen, as the trace shows. -/
theorem completion_throw_escalates_cex :
    (createSplitOrders noFail (CompletionOutcome.threw "completion failed") sampleOrder
        samplePortionSplits "table-1" "order-123" sampleDB).1
      = Except.error "completion failed" ∧
    Ev.commitTxn ∈ (createSplitOrders noFail (CompletionOutcome.threw "completion failed")
        sampleOrder samplePortionSplits "table-1" "order-123" sampleDB).2.2 := by
  constructor
  · rfl
  · decide

/-- Claim C2 (amended): for every split whose N inserts all succeed, the
`part_001` variant (`createSplitOrdersCtl`, completion guarded by its own
try/catch) returns the full result list whatever the completion outcome
(success, failure, or throw); the `part_000` variant (`createSplitOrders`)
returns the full result list when the completion merely fails (falsy result),
but a *thrown* completion error propagates to the caller. -/
theorem completion_nonblocking (storeFail : ℕ → Option String)
    (completion : CompletionOutcome) (originalOrder : OrderRow) (splits : List ItemMap)
    (tableId originalOrderId : String) (db : DB)
    (h : insertsOk storeFail originalOrderId splits db = true) :
    (createSplitOrdersCtl storeFail completion originalOrder splits tableId originalOrderId
        db).1 = Except.ok (splitResults storeFail originalOrderId splits db) ∧
    (createSplitOrders storeFail CompletionOutcome.success originalOrder splits tableId
        originalOrderId db).1
      = Except.ok (splitResults storeFail originalOrderId splits db) ∧
    (createSplitOrders storeFail CompletionOutcome.failed originalOrder splits tableId
        originalOrderId db).1
      = Except.ok (splitResults storeFail originalOrderId splits db) ∧
    (splitResults storeFail originalOrderId splits db).length = splits.length ∧
    ∀ msg, (createSplitOrders storeFail (CompletionOutcome.threw msg) originalOrder splits
        tableId originalOrderId db).1 = Except.error msg := by
  obtain ⟨res, db₂, hrun⟩ := insertsOk_eq_true.mp h
  have hres := splitResults_eq hrun
  obtain ⟨_, hitems⟩ := runInserts_ok_res storeFail originalOrderId splits 0 db [] res db₂ hrun
  refine ⟨?_, ?_, ?_, ?_, ?_⟩
  · rw [createSplitOrdersCtl_ok storeFail completion originalOrder splits tableId
      originalOrderId db res db₂ hrun, hres]
  · rw [createSplitOrders_ok_success storeFail originalOrder splits tableId
      originalOrderId db res db₂ hrun, hres]
  · rw [createSplitOrders_ok_failed storeFail originalOrder splits tableId
      originalOrderId db res db₂ hrun, hres]
  · rw [hres]
    have hlen := congrArg List.length hitems
    simpa using hlen
  · intro msg
    rw [createSplitOrders_ok_threw storeFail originalOrder splits tableId
      originalOrderId db res db₂ msg hrun]

theorem completion_nonblocking_witness :
    (createSplitOrdersCtl noFail (CompletionOutcome.threw "boom") sampleOrder
        samplePortionSplits "table-1" "order-123" sampleDB).1
      = Except.ok (splitResults noFail "order-123" samplePortionSplits sampleDB) ∧
    (createSplitOrders noFail CompletionOutcome.failed sampleOrder samplePortionSplits
        "table-1" "order-123" sampleDB).1
      = Except.ok (splitResults noFail "order-123" samplePortionSplits sampleDB) ∧
    (createSplitOrders noFail (CompletionOutcome.threw "boom") sampleOrder
        samplePortionSplits "table-1" "order-123" sampleDB).1 = Except.error "boom" := by
  have h := completion_nonblocking noFail (CompletionOutcome.threw "boom") sampleOrder
    samplePortionSplits "table-1" "order-123" sampleDB rfl
  exact ⟨h.1, h.2.2.1, h.2.2.2.2 "boom"⟩

/-- Claim C9: in both variants, the completion collaborator is invoked exactly
once per committed split — the trace's complete-call events are exactly
`[completeCall originalOrder.restaurant_id originalOrder.table_id 0 "split"]` —
and never while the transaction is still open (no complete-call strictly
before the COMMIT event); on a failed (rolled-back) run it is never invoked
at all and the trace ends in a ROLLBACK. -/
theorem completion_timing (storeFail : ℕ → Option String) (completion : CompletionOutcome)
    (originalOrder : OrderRow) (splits : List ItemMap) (tableId originalOrderId : String)
    (db : DB) :
    (insertsOk storeFail originalOrderId splits db = true →
      completeEvents ((createSplitOrders storeFail completion originalOrder splits tableId
          originalOrderId db).2.2)
        = [Ev.completeCall originalOrder.restaurant_id originalOrder.table_id 0 "split"] ∧
      completesBeforeCommit ((createSplitOrders storeFail completion originalOrder splits
          tableId originalOrderId db).2.2) = [] ∧
      completeEvents ((createSplitOrdersCtl storeFail completion originalOrder splits tableId
          originalOrderId db).2.2)
        = [Ev.completeCall originalOrder.restaurant_id originalOrder.table_id 0 "split"] ∧
      completesBeforeCommit ((createSplitOrdersCtl storeFail completion originalOrder splits
          tableId originalOrderId db).2.2) = []) ∧
    (insertsOk storeFail originalOrderId splits db = false →
      completeEvents ((createSplitOrders storeFail completion originalOrder splits tableId
          originalOrderId db).2.2) = [] ∧
      Ev.rollbackTxn ∈ (createSplitOrders storeFail completion originalOrder splits tableId
          originalOrderId db).2.2 ∧
      completeEvents ((createSplitOrdersCtl storeFail completion originalOrder splits tableId
          originalOrderId db).2.2) = [] ∧
      Ev.rollbackTxn ∈ (createSplitOrdersCtl storeFail completion originalOrder splits tableId
          originalOrderId db).2.2) := by
  have hall := runInserts_events storeFail originalOrderId splits 0 db []
  have hfilter := runInserts_filter_complete storeFail originalOrderId splits 0 db []
  have hce : ∀ rest : List Ev,
      completeEvents (Ev.beginTxn :: (runInserts storeFail originalOrderId splits 0 db []).2
        ++ Ev.commitTxn :: rest) = rest.filter isCompleteCall := by
    intro rest
    unfold completeEvents
    rw [List.filter_append, List.filter_cons, hfilter]
    simp [isCompleteCall, List.filter_cons]
  have hbc : ∀ rest : List Ev,
      completesBeforeCommit (Ev.beginTxn ::
        (runInserts storeFail originalOrderId splits 0 db []).2
          ++ Ev.commitTxn :: rest) = [] := by
    intro rest
    show completesBeforeCommit ((runInserts storeFail originalOrderId splits 0 db []).2
      ++ Ev.commitTxn :: rest) = []
    exact completesBeforeCommit_of_inserts _ hall rest
  constructor
  · intro h
    obtain ⟨res, db₂, hrun⟩ := insertsOk_eq_true.mp h
    have hctl := createSplitOrdersCtl_ok storeFail completion originalOrder splits tableId
      originalOrderId db res db₂ hrun
    refine ⟨?_, ?_, ?_, ?_⟩
    · cases completion with
      | success =>
        rw [createSplitOrders_ok_success storeFail originalOrder splits tableId
          originalOrderId db res db₂ hrun]
        rw [show ((Except.ok res : Except String (List SplitResultEntry)), db₂,
          Ev.beginTxn :: (runInserts storeFail originalOrderId splits 0 db []).2 ++
            [Ev.commitTxn, Ev.completeCall originalOrder.restaurant_id
              originalOrder.table_id 0 "split"]).2.2
          = Ev.beginTxn :: (runInserts storeFail originalOrderId splits 0 db []).2 ++
            Ev.commitTxn :: [Ev.completeCall originalOrder.restaurant_id
              originalOrder.table_id 0 "split"] from rfl]
        rw [hce]
        simp [isCompleteCall]
      | failed =>
        rw [createSplitOrders_ok_failed storeFail originalOrder splits tableId
          originalOrderId db res db₂ hrun]
        rw [show ((Except.ok res : Except String (List SplitResultEntry)), db₂,
          Ev.beginTxn :: (runInserts storeFail originalOrderId splits 0 db []).2 ++
            [Ev.commitTxn, Ev.completeCall originalOrder.restaurant_id
              originalOrder.table_id 0 "split"]).2.2
          = Ev.beginTxn :: (runInserts storeFail originalOrderId splits 0 db []).2 ++
            Ev.commitTxn :: [Ev.completeCall originalOrder.restaurant_id
              originalOrder.table_id 0 "split"] from rfl]
        rw [hce]
        simp [isCompleteCall]
      | threw msg =>
        rw [createSplitOrders_ok_threw storeFail originalOrder splits tableId
          originalOrderId db res db₂ msg hrun]
        rw [show ((Except.error msg : Except String (List SplitResultEntry)), db₂,
          (Ev.beginTxn :: (runInserts storeFail originalOrderId splits 0 db []).2 ++
            [Ev.commitTxn, Ev.completeCall originalOrder.restaurant_id
              originalOrder.table_id 0 "split"]) ++ [Ev.rollbackTxn]).2.2
          = Ev.beginTxn :: (runInserts storeFail originalOrderId splits 0 db []).2 ++
            Ev.commitTxn :: [Ev.completeCall originalOrder.restaurant_id
              originalOrder.table_id 0 "split", Ev.rollbackTxn] from by
            rw [List.append_assoc]
            rfl]
        rw [hce]
        simp [isCompleteCall]
    · cases completion with
      | success =>
        rw [createSplitOrders_ok_success storeFail originalOrder splits tableId
          originalOrderId db res db₂ hrun]
        exact hbc _
      | failed =>
        rw [createSplitOrders_ok_failed storeFail originalOrder splits tableId
          originalOrderId db res db₂ hrun]
        exact hbc _
      | threw msg =>
        rw [createSplitOrders_ok_threw storeFail originalOrder splits tableId
          originalOrderId db res db₂ msg hrun]
        rw [show ((Except.error msg : Except String (List SplitResultEntry)), db₂,
          (Ev.beginTxn :: (runInserts storeFail originalOrderId splits 0 db []).2 ++
            [Ev.commitTxn, Ev.completeCall originalOrder.restaurant_id
              originalOrder.table_id 0 "split"]) ++ [Ev.rollbackTxn]).2.2
          = Ev.beginTxn :: (runInserts storeFail originalOrderId splits 0 db []).2 ++
            Ev.commitTxn :: [Ev.completeCall originalOrder.restaurant_id
              originalOrder.table_id 0 "split", Ev.rollbackTxn] from by
            rw [List.append_assoc]
            rfl]
        exact hbc _
    · rw [hctl]
      rw [show ((Except.ok res : Except String (List SplitResultEntry)), db₂,
        Ev.beginTxn :: (runInserts storeFail originalOrderId splits 0 db []).2 ++
          [Ev.commitTxn, Ev.completeCall originalOrder.restaurant_id
            originalOrder.table_id 0 "split"]).2.2
        = Ev.beginTxn :: (runInserts storeFail originalOrderId splits 0 db []).2 ++
          Ev.commitTxn :: [Ev.completeCall originalOrder.restaurant_id
            originalOrder.table_id 0 "split"] from rfl]
      rw [hce]
      simp [isCompleteCall]
    · rw [hctl]
      exact hbc _
  · intro h
    obtain ⟨msg, hrun⟩ := insertsOk_false_error h
    have heq := createSplitOrders_error storeFail completion originalOrder splits tableId
      originalOrderId db msg hrun
    have heqc := createSplitOrdersCtl_error storeFail completion originalOrder splits tableId
      originalOrderId db msg hrun
    have hfe : completeEvents (Ev.beginTxn ::
        (runInserts storeFail originalOrderId splits 0 db []).2 ++ [Ev.rollbackTxn]) = [] := by
      unfold completeEvents
      rw [List.filter_append, List.filter_cons, hfilter]
      simp [isCompleteCall, List.filter_cons]
    have hfm : Ev.rollbackTxn ∈ Ev.beginTxn ::
        (runInserts storeFail originalOrderId splits 0 db []).2 ++ [Ev.rollbackTxn] := by
      simp
    exact ⟨by rw [heq]; exact hfe, by rw [heq]; exact hfm,
      by rw [heqc]; exact hfe, by rw [heqc]; exact hfm⟩

theorem completion_timing_witness :
    completeEvents ((createSplitOrders noFail CompletionOutcome.success sampleOrder
        samplePortionSplits "table-1" "order-123" sampleDB).2.2)
      = [Ev.completeCall sampleOrder.restaurant_id sampleOrder.table_id 0 "split"] ∧
    completesBeforeCommit ((createSplitOrders noFail CompletionOutcome.success sampleOrder
        samplePortionSplits "table-1" "order-123" sampleDB).2.2) = [] ∧
    completeEvents ((createSplitOrders downStore CompletionOutcome.success sampleOrder
        samplePortionSplits "table-1" "order-123" sampleDB).2.2) = [] ∧
    Ev.rollbackTxn ∈ (createSplitOrders downStore CompletionOutcome.success sampleOrder
        samplePortionSplits "table-1" "order-123" sampleDB).2.2 := by
  have h1 := (completion_timing noFail CompletionOutcome.success sampleOrder
    samplePortionSplits "table-1" "order-123" sampleDB).1 rfl
  have h2 := (completion_timing downStore CompletionOutcome.success sampleOrder
    samplePortionSplits "table-1" "order-123" sampleDB).2 rfl
  exact ⟨h1.1, h1.2.1, h2.1, h2.2.1⟩

/-- Claim C3: for every item map and `count ≥ 1`, `calculatePortionSplit`
returns exactly `count` shares; in every share every customization's quantity
is the original quantity divided by `count` (exact rational division — all
shares get the identical fraction), its price is unchanged and
`originalPrice` records the pre-split per-unit price; hence for every in-range
item and customization the share quantities sum to the original quantity
exactly. -/
theorem portion_split_spec (items : ItemMap) (count : ℕ) (h : 1 ≤ count) :
    (calculatePortionSplit items count).length = count ∧
    (∀ s ∈ calculatePortionSplit items count, ∀ j k, j < items.length →
        k < (itemAt items j).customizations.length →
        (custAt s j k).qty = (custAt items j k).qty / (count : ℚ) ∧
        (custAt s j k).price = (custAt items j k).price ∧
        (custAt s j k).originalPrice = some (custAt items j k).price) ∧
    (∀ j k, j < items.length → k < (itemAt items j).customizations.length →
        ((calculatePortionSplit items count).map (fun s => (custAt s j k).qty)).sum
          = (custAt items j k).qty) := by
  refine ⟨by simp [calculatePortionSplit], ?_, ?_⟩
  · intro s hs j k hj hk
    have hseq := List.eq_of_mem_replicate hs
    subst hseq
    rw [custAt_map (portionCustomization count) (portionItem count) (fun it => rfl)
      items j k hj hk]
    exact ⟨rfl, rfl, rfl⟩
  · intro j k hj hk
    rw [show calculatePortionSplit items count
        = List.replicate count (items.map (fun kv => (kv.1, portionItem count kv.2)))
      from rfl]
    rw [List.map_replicate, List.sum_replicate]
    rw [custAt_map (portionCustomization count) (portionItem count) (fun it => rfl)
      items j k hj hk]
    exact nsmul_div_cancel_count count h _

theorem portion_split_spec_witness :
    (calculatePortionSplit sampleItems 3).length = 3 ∧
    (custAt (sampleItems.map (fun kv => (kv.1, portionItem 3 kv.2))) 0 0).price
      = (custAt sampleItems 0 0).price ∧
    ((calculatePortionSplit sampleItems 3).map (fun s => (custAt s 0 0).qty)).sum
      = (custAt sampleItems 0 0).qty := by
  have h := portion_split_spec sampleItems 3 (by decide)
  refine ⟨h.1, ?_, h.2.2 0 0 (by decide) (by decide)⟩
  exact (h.2.1 (sampleItems.map (fun kv => (kv.1, portionItem 3 kv.2)))
    (List.mem_replicate.mpr ⟨by decide, rfl⟩) 0 0 (by decide) (by decide)).2.1

/-- Claim C4: for every item map and list of positive percentages whose sum is
within ±0.01 of 100, `calculatePercentageSplit` returns one share per
percentage in the caller-supplied order; the i-th share's quantity at every
in-range position is `qty * pᵢ / 100` (zero-quantity results are kept —
nothing is filtered, every position of every share is defined by this
formula); and across shares the quantities of each customization sum to
exactly `qty * (Σp) / 100`, which for non-negative `qty` is within
`qty / 10000` of the original quantity. -/
theorem percentage_split_spec (items : ItemMap) (ps : List ℚ)
    (hpos : ∀ p ∈ ps, 0 < p) (hsum : |ps.sum - 100| ≤ 1/100) :
    (calculatePercentageSplit items ps).length = ps.length ∧
    (∀ i, i < ps.length → ∀ j k, j < items.length →
        k < (itemAt items j).customizations.length →
        (custAt ((calculatePercentageSplit items ps).getD i []) j k).qty
          = (custAt items j k).qty * ps.getD i 0 / 100 ∧
        (custAt ((calculatePercentageSplit items ps).getD i []) j k).price
          = (custAt items j k).price ∧
        (custAt ((calculatePercentageSplit items ps).getD i []) j k).originalPrice
          = some (custAt items j k).price) ∧
    (∀ j k, j < items.length → k < (itemAt items j).customizations.length →
        ((calculatePercentageSplit items ps).map (fun s => (custAt s j k).qty)).sum
          = (custAt items j k).qty * ps.sum / 100 ∧
        (0 ≤ (custAt items j k).qty →
          |((calculatePercentageSplit items ps).map (fun s => (custAt s j k).qty)).sum
              - (custAt items j k).qty| ≤ (custAt items j k).qty / 10000)) := by
  refine ⟨by simp [calculatePercentageSplit], ?_, ?_⟩
  · intro i hi j k hj hk
    have hgetD : (calculatePercentageSplit items ps).getD i []
        = items.map (fun kv => (kv.1, percentageItem (ps.getD i 0) kv.2)) := by
      unfold calculatePercentageSplit
      rw [List.getD_eq_getElem _ _ (by simpa using hi), List.getElem_map,
        List.getD_eq_getElem _ _ hi]
    rw [hgetD, custAt_map (percentageCustomization (ps.getD i 0))
      (percentageItem (ps.getD i 0)) (fun it => rfl) items j k hj hk]
    exact ⟨rfl, rfl, rfl⟩
  · intro j k hj hk
    have hmap : (calculatePercentageSplit items ps).map (fun s => (custAt s j k).qty)
        = ps.map (fun p => (custAt items j k).qty * p / 100) := by
      unfold calculatePercentageSplit
      rw [List.map_map]
      apply List.map_congr_left
      intro p _
      show (custAt (items.map (fun kv => (kv.1, percentageItem p kv.2))) j k).qty
        = (custAt items j k).qty * p / 100
      rw [custAt_map (percentageCustomization p) (percentageItem p) (fun it => rfl)
        items j k hj hk]
      rfl
    constructor
    · rw [hmap, sum_map_qty_pct]
    · intro hq
      rw [hmap, sum_map_qty_pct]
      have heq : (custAt items j k).qty * ps.sum / 100 - (custAt items j k).qty
          = (custAt items j k).qty * (ps.sum - 100) / 100 := by ring
      rw [heq, abs_div, abs_mul, abs_of_nonneg hq,
        show |(100 : ℚ)| = 100 from abs_of_nonneg (by norm_num)]
      calc (custAt items j k).qty * |ps.sum - 100| / 100
          ≤ (custAt items j k).qty * (1/100) / 100 := by gcongr
        _ = (custAt items j k).qty / 10000 := by ring

theorem percentage_split_spec_witness :
    (calculatePercentageSplit sampleItems samplePercentages).length
      = samplePercentages.length ∧
    (custAt ((calculatePercentageSplit sampleItems samplePercentages).getD 0 []) 0 0).qty
      = (custAt sampleItems 0 0).qty * samplePercentages.getD 0 0 / 100 ∧
    ((calculatePercentageSplit sampleItems samplePercentages).map
        (fun s => (custAt s 0 0).qty)).sum
      = (custAt sampleItems 0 0).qty * samplePercentages.sum / 100 ∧
    |((calculatePercentageSplit sampleItems samplePercentages).map
        (fun s => (custAt s 0 0).qty)).sum - (custAt sampleItems 0 0).qty|
      ≤ (custAt sampleItems 0 0).qty / 10000 := by
  have hpos : ∀ p ∈ samplePercentages, 0 < p := by
    intro p hp
    simp [samplePercentages] at hp
    rcases hp with rfl | rfl | rfl <;> decide
  have hsum : |samplePercentages.sum - 100| ≤ 1/100 := by
    rw [show samplePercentages.sum = 100 by
      norm_num [samplePercentages, List.sum_cons, List.sum_nil]]
    norm_num
  have h := percentage_split_spec sampleItems samplePercentages hpos hsum
  have hq : (0 : ℚ) ≤ (custAt sampleItems 0 0).qty := by decide
  exact ⟨h.1, (h.2.1 0 (by decide) 0 0 (by decide) (by decide)).1,
    (h.2.2 0 0 (by decide) (by decide)).1,
    (h.2.2 0 0 (by decide) (by decide)).2 hq⟩

/-- Claim C10: structure preservation — for both calculators, every produced
share keys exactly the input's item ids in the same order, keeps every item's
metadata and the number (and order) of its customizations, and copies every
customization field other than `qty` and the added `originalPrice` (that is,
`price` and the spread-copied `extra` fields) verbatim. -/
theorem structure_preservation (items : ItemMap) (count : ℕ) (ps : List ℚ) :
    (∀ s ∈ calculatePortionSplit items count,
      s.map Prod.fst = items.map Prod.fst ∧
      ∀ j, j < items.length →
        (itemAt s j).meta = (itemAt items j).meta ∧
        (itemAt s j).customizations.length = (itemAt items j).customizations.length ∧
        ∀ k, k < (itemAt items j).customizations.length →
          (custAt s j k).price = (custAt items j k).price ∧
          (custAt s j k).extra = (custAt items j k).extra) ∧
    (∀ s ∈ calculatePercentageSplit items ps,
      s.map Prod.fst = items.map Prod.fst ∧
      ∀ j, j < items.length →
        (itemAt s j).meta = (itemAt items j).meta ∧
        (itemAt s j).customizations.length = (itemAt items j).customizations.length ∧
        ∀ k, k < (itemAt items j).customizations.length →
          (custAt s j k).price = (custAt items j k).price ∧
          (custAt s j k).extra = (custAt items j k).extra) := by
  constructor
  · intro s hs
    have hseq := List.eq_of_mem_replicate hs
    subst hseq
    exact mapped_share_structure (portionItem count) (portionCustomization count)
      (fun it => rfl) (fun it => rfl) (fun c => rfl) (fun c => rfl) items
  · intro s hs
    unfold calculatePercentageSplit at hs
    obtain ⟨p, hp, hseq⟩ := List.mem_map.mp hs
    subst hseq
    exact mapped_share_structure (percentageItem p) (percentageCustomization p)
      (fun it => rfl) (fun it => rfl) (fun c => rfl) (fun c => rfl) items

theorem structure_preservation_witness :
    samplePortionShare.map Prod.fst = sampleItems.map Prod.fst ∧
    (itemAt samplePortionShare 0).meta = (itemAt sampleItems 0).meta ∧
    (custAt samplePercentageShare40 0 0).price = (custAt sampleItems 0 0).price := by
  have h := structure_preservation sampleItems 2 samplePercentages
  have hmem1 : samplePortionShare ∈ calculatePortionSplit sampleItems 2 :=
    List.mem_replicate.mpr ⟨by decide, rfl⟩
  have hmem2 : samplePercentageShare40
      ∈ calculatePercentageSplit sampleItems samplePercentages :=
    List.mem_map.mpr ⟨40, by simp [samplePercentages], rfl⟩
  exact ⟨(h.1 samplePortionShare hmem1).1,
    ((h.1 samplePortionShare hmem1).2 0 (by decide)).1,
    (((h.2 samplePercentageShare40 hmem2).2 0 (by decide)).2.2 0 (by decide)).1⟩

/-- Claim C6: any request in the spec's invalid set (`specInvalidRequest`:
missing `tableId`/`orderId`/`splitType`, `splitType` outside
{portion, percentage}, portion with missing/non-integer/below-1 count,
percentage with missing/empty/non-positive-entry/bad-sum percentages) is
rejected by `validateSplitRequest` (a pure function — no side effects), and
`splitBill` then answers 400 with the validation message before any store
access: the table is returned unchanged and the store-access flag is false. -/
theorem validation_fails_fast (storeFail : ℕ → Option String)
    (completion : CompletionOutcome) (b : SplitRequestBody) (db : DB)
    (h : specInvalidRequest b) :
    validateSplitRequest b = Except.error (validationError b) ∧
    splitBill storeFail completion b db
      = (SplitResponse.err 400 (validationError b), db, false) := by
  cases hv : validateSplitRequest b with
  | ok u =>
    cases u
    exact absurd h (validateSplitRequest_ok hv)
  | error msg =>
    have hve : validationError b = msg := by
      unfold validationError
      rw [hv]
    rw [hve]
    refine ⟨rfl, ?_⟩
    unfold splitBill
    rw [hv]

theorem validation_fails_fast_witness :
    validateSplitRequest missingTableBody
      = Except.error (validationError missingTableBody) ∧
    splitBill noFail CompletionOutcome.success missingTableBody sampleDB
      = (SplitResponse.err 400 (validationError missingTableBody), sampleDB, false) :=
  validation_fails_fast noFail CompletionOutcome.success missingTableBody sampleDB
    (Or.inl rfl)

/-- Claim C7: `percentages = [40, 35, 20]` (sum 95) is rejected with the
sum-mismatch error, and `percentages = [50, -10, 60]` (sum exactly 100) is
rejected with the non-positive-entry error — a list containing a non-positive
entry is rejected even when its sum passes the ±0.01 check. -/
theorem percentage_validation_examples :
    validateSplitRequest sumMismatchBody = Except.error "Percentages must sum to 100" ∧
    validateSplitRequest negativeEntryBody
      = Except.error "All percentages must be greater than 0" := by
  constructor
  · rw [show validateSplitRequest sumMismatchBody
        = validatePercentageList (some [40, 35, 20]) from rfl]
    simp only [validatePercentageList]
    rw [if_neg (by decide), if_pos (by norm_num [ratAbs, List.sum_cons, List.sum_nil])]
  · rw [show validateSplitRequest negativeEntryBody
        = validatePercentageList (some [50, -10, 60]) from rfl]
    simp only [validatePercentageList]
    rw [if_neg (by decide), if_neg (by norm_num [ratAbs, List.sum_cons, List.sum_nil]),
      if_pos (show ∃ p ∈ ([50, -10, 60] : List ℚ), p ≤ 0
        from ⟨-10, by simp, by norm_num⟩)]

/-- Claim C8 counterexample: a failing split operation whose order does not
exist is answered with HTTP status 404 and `{error: "Order not found"}` —
not status 400; the claim's "400 for every error category, including
not-found" is false on the code. -/
theorem notfound_status_cex :
    (splitBill noFail CompletionOutcome.success samplePortionBody []).1
      = SplitResponse.err 404 "Order not found" ∧ (404 : ℕ) ≠ 400 :=
  ⟨rfl, by decide⟩

/-- Claim C8 (amended): every failure response of `splitBill` has the shape
`{error: string}` (the `SplitResponse.err` constructor carries exactly a
status and an error string); the status is 400 for every error category
except the not-found path, which returns 404 with error "Order not found". -/
theorem failure_response_status (storeFail : ℕ → Option String)
    (completion : CompletionOutcome) (body : SplitRequestBody) (db : DB) (s : ℕ)
    (msg : String)
    (h : (splitBill storeFail completion body db).1 = SplitResponse.err s msg) :
    s = 400 ∨ (s = 404 ∧ msg = "Order not found") := by
  unfold splitBill at h
  cases hv : validateSplitRequest body with
  | error m =>
    simp only [hv] at h
    have hx : SplitResponse.err 400 m = SplitResponse.err s msg := h
    injection hx with h1 h2
    exact Or.inl h1.symm
  | ok u =>
    cases u
    simp only [hv] at h
    cases hf : fetchOrder db (body.orderId.getD "") (body.tableId.getD "") with
    | none =>
      simp only [hf] at h
      have hx : SplitResponse.err 404 "Order not found" = SplitResponse.err s msg := h
      injection hx with h1 h2
      exact Or.inr ⟨h1.symm, h2.symm⟩
    | some order =>
      simp only [hf] at h
      rcases hc : createSplitOrders storeFail completion order
          (if body.splitType = some "portion" then
            calculatePortionSplit order.json_data (countAsNat body.count)
          else calculatePercentageSplit order.json_data (body.percentages.getD []))
          (body.tableId.getD "") (body.orderId.getD "") db with ⟨r, db', tr⟩
      cases r with
      | ok results =>
        simp only [hc] at h
        exact absurd h (by simp)
      | error m =>
        simp only [hc] at h
        have hx : SplitResponse.err 400 m = SplitResponse.err s msg := h
        injection hx with h1 h2
        exact Or.inl h1.symm

theorem failure_response_status_witness :
    (404 : ℕ) = 400 ∨ ((404 : ℕ) = 404 ∧ "Order not found" = "Order not found") :=
  failure_response_status noFail CompletionOutcome.success samplePortionBody [] 404
    "Order not found" rfl
